import Mathlib

set_option maxRecDepth 4000

/-!
Shallow embedding of the medical-report PDF extraction/structuring utilities
(`src/utils/pdfProcessor.ts` and `src/utils/textProcessor.ts`).

Strings are modelled as Lean `String`/`List Char`.  Each JavaScript regular
expression used by the source is embedded as a dedicated executable function
reproducing its leftmost-match / greedy / lazy / backtracking semantics on the
ASCII inputs the program handles.  Bounded recursion uses an explicit fuel
argument equal to the input length, which is always sufficient because every
step consumes at least one character; the fuel-exhausted base cases are
unreachable from the public entry points.
-/

/-- JS `\s` (whitespace class) restricted to the ASCII characters the program
can encounter: space, tab, newline, carriage return, vertical tab, form feed. -/
def isWs (c : Char) : Bool :=
  c == ' ' || c == '\t' || c == '\n' || c == '\r' || c == '\x0b' || c == '\x0c'

/-- The characters matched by the `/[\n\r]+/` line-split regex. -/
def isNL (c : Char) : Bool :=
  c == '\n' || c == '\r'

/-- JS `\w`: ASCII letters, digits and underscore. -/
def isWordChar (c : Char) : Bool :=
  ('a' ≤ c && c ≤ 'z') || ('A' ≤ c && c ≤ 'Z') || ('0' ≤ c && c ≤ '9') || c == '_'

/-- JS `\d`: ASCII digits. -/
def isDigitCh (c : Char) : Bool :=
  '0' ≤ c && c ≤ '9'

/-- ASCII lower-casing, the effect of JS `toLowerCase()` on the ASCII text the
program processes. -/
def lowerChar (c : Char) : Char :=
  if 'A' ≤ c && c ≤ 'Z' then Char.ofNat (c.toNat + 32) else c

/-- `String` version of `lowerChar`, embedding `line.toLowerCase()`. -/
def lowerStr (s : String) : String :=
  String.mk (s.toList.map lowerChar)

/-- Embeds JS `trim()`: drop leading and trailing whitespace. -/
def trimWs (s : String) : String :=
  String.mk (((s.toList.dropWhile isWs).reverse.dropWhile isWs).reverse)

/-- Does `pat` match at the front of the list (character-wise equality)? -/
def leadsWith : List Char → List Char → Bool
  | [], _ => true
  | _ :: _, [] => false
  | p :: ps, c :: cs => p == c && leadsWith ps cs

/-- Embeds JS `String.prototype.includes`: `pat` occurs contiguously in the list. -/
def containsSeq (pat : List Char) : List Char → Bool
  | [] => pat.isEmpty
  | c :: cs => leadsWith pat (c :: cs) || containsSeq pat cs

/-- `s.includes(pat)` on strings (used on already lower-cased lines). -/
def strIncludes (s pat : String) : Bool :=
  containsSeq pat.toList s.toList

/-- Fueled worker for `splitRuns`.  Embeds JS `str.split(/X+/)` (split on
maximal runs of separator characters, keeping empty pieces only at the two
ends, as JS does).  Fuel `≥` input length never runs out since each recursive
call consumes at least one separator character. -/
def splitRunsGo (p : Char → Bool) : Nat → List Char → List String
  | 0, cs => [String.mk cs]
  | fuel + 1, cs =>
    let head := cs.takeWhile (fun c => !p c)
    let rest := cs.dropWhile (fun c => !p c)
    match rest with
    | [] => [String.mk head]
    | _ :: rs => String.mk head :: splitRunsGo p fuel (rs.dropWhile p)

/-- JS `s.split(/X+/)` where `X` is the character class decided by `p`.
Instantiated with `isNL` it embeds `cleanText.split(/[\n\r]+/)`; with `isWs`
it embeds `line.split(/\s+/)`. -/
def splitRuns (p : Char → Bool) (s : String) : List String :=
  splitRunsGo p s.length s.toList

/-- Join a list of strings with single spaces, embedding JS `arr.join(' ')`. -/
def joinSp : List String → String
  | [] => ""
  | [x] => x
  | x :: y :: t => x ++ " " ++ joinSp (y :: t)

/-- Embeds `text.replace(/\s+/g, ' ').trim()` (textProcessor.ts line 71):
every maximal whitespace run becomes one space and outer whitespace is
dropped, i.e. the non-whitespace tokens joined by single spaces. -/
def normalizeWS (s : String) : String :=
  joinSp ((splitRuns isWs s).filter (fun t => t ≠ ""))

/-- One repetition `\s+\1\b` of the duplicate-word regex: at least one
whitespace character, then the backreferenced word `w`, then a word boundary.
Returns the remaining suffix on success.  (No backtracking is possible here:
`w` starts with a word character, which is never whitespace.) -/
def matchRep (w : List Char) (cs : List Char) : Option (List Char) :=
  let ws := cs.takeWhile isWs
  if ws.isEmpty then none
  else
    let rest := cs.dropWhile isWs
    if leadsWith w rest then
      let rest2 := rest.drop w.length
      match rest2 with
      | [] => some []
      | c :: _ => if isWordChar c then none else some rest2
    else none

/-- Greedy `(\s+\1\b)+`: as many repetitions as possible, at least one.
Each repetition consumes `≥ 2` characters, so fuel `≥` input length suffices. -/
def matchReps (w : List Char) : Nat → List Char → Option (List Char)
  | 0, _ => none
  | fuel + 1, cs =>
    match matchRep w cs with
    | none => none
    | some rest =>
      match matchReps w fuel rest with
      | none => some rest
      | some rest2 => some rest2

/-- Scanner for the global replace `line.replace(/(\b\w+\b)(\s+\1\b)+/g, '$1')`
(textProcessor.ts line 74).  `prevW` records whether the previous character is
a word character (for the leading `\b`).  A match can only start at the start
of a maximal word run; on a match the whole matched span is replaced by the
word; otherwise the scanner advances one character, as the JS engine does.
Fuel `≥` input length never runs out (each step consumes `≥ 1` character). -/
def dedupGo : Nat → Bool → List Char → List Char
  | 0, _, cs => cs
  | _ + 1, _, [] => []
  | fuel + 1, prevW, c :: cs =>
    if isWordChar c && !prevW then
      let w := List.takeWhile isWordChar (c :: cs)
      let afterW := List.dropWhile isWordChar (c :: cs)
      match matchReps w (afterW.length + 1) afterW with
      | some rest => w ++ dedupGo fuel true rest
      | none => c :: dedupGo fuel true cs
    else
      c :: dedupGo fuel (isWordChar c) cs

/-- Embeds `line.replace(/(\b\w+\b)(\s+\1\b)+/g, '$1')`: collapse a word
immediately repeated (whitespace-separated) to a single occurrence. -/
def dedupWords (s : String) : String :=
  String.mk (dedupGo s.toList.length false s.toList)

/-- The normalized-and-deduplicated form of a page text: what one mapped
entry of `lines` in `preprocessText` looks like (textProcessor.ts lines 71-75). -/
def mergedLine (text : String) : String :=
  trimWs (dedupWords (normalizeWS text))

/-- The `lines` array of `preprocessText` (textProcessor.ts lines 71-75):
whitespace-normalize the whole page, split on `/[\n\r]+/`, then collapse
duplicated words and trim each piece. -/
def preprocessLines (text : String) : List String :=
  (splitRuns isNL (normalizeWS text)).map (fun line => trimWs (dedupWords line))

/-- The classification buckets built by `preprocessText`
(textProcessor.ts lines 60-68). -/
structure Sections where
  patientInfo : List String
  investigation : List String
  observedValue : List String
  unit : List String
  biologicalRefInterval : List String
  diagnosis : List String
  medications : List String
deriving Repr, DecidableEq

def emptySections : Sections :=
  ⟨[], [], [], [], [], [], []⟩

/-- The `columnIndices` object (textProcessor.ts line 80): a key is present
exactly when the corresponding column name was recognized in a header line. -/
structure ColumnIndices where
  investigation : Option Nat
  observedValue : Option Nat
  unit : Option Nat
  biologicalRefInterval : Option Nat
deriving Repr, DecidableEq

def emptyIndices : ColumnIndices :=
  ⟨none, none, none, none⟩

/-- `Object.keys(columnIndices).length > 0` (textProcessor.ts line 119). -/
def ciAny (ci : ColumnIndices) : Bool :=
  ci.investigation.isSome || ci.observedValue.isSome ||
  ci.unit.isSome || ci.biologicalRefInterval.isSome

/-- One step of the header-token scan (textProcessor.ts lines 104-115):
the else-if chain testing the lower-cased token and recording its index. -/
def updateIndex (ci : ColumnIndices) (value : String) (index : Nat) : ColumnIndices :=
  let lv := lowerStr value
  if strIncludes lv "investigation" then { ci with investigation := some index }
  else if strIncludes lv "observed" || strIncludes lv "value" then
    { ci with observedValue := some index }
  else if lv == "unit" then { ci with unit := some index }
  else if strIncludes lv "biological" || strIncludes lv "ref" then
    { ci with biologicalRefInterval := some index }
  else ci

/-- `values.forEach((value, index) => ...)` over the header tokens. -/
def computeIndicesGo (ci : ColumnIndices) (i : Nat) : List String → ColumnIndices
  | [] => ci
  | v :: vs => computeIndicesGo (updateIndex ci v i) (i + 1) vs

def computeIndices (ci : ColumnIndices) (values : List String) : ColumnIndices :=
  computeIndicesGo ci 0 values

/-- `getColumnValue` (textProcessor.ts lines 138-141): `undefined` or
out-of-range index yields no value, otherwise the trimmed token. -/
def getColumnValue (values : List String) (index : Option Nat) : Option String :=
  match index with
  | none => none
  | some i => if values.length ≤ i then none else some (trimWs (values.getD i ""))

/-- JS truthiness guard on a column value (`if (value) push(value)`,
textProcessor.ts lines 127-130): appended only when defined and non-empty. -/
def pushVal (o : Option String) : List String :=
  match o with
  | some v => if v == "" then [] else [v]
  | none => []

/-- The patient-info keyword trigger (textProcessor.ts lines 86-92),
applied to the lower-cased trimmed line. -/
def patientCond (lowerLine : String) : Bool :=
  strIncludes lowerLine "order id" || strIncludes lowerLine "name" ||
  strIncludes lowerLine "collected on" || strIncludes lowerLine "gender" ||
  strIncludes lowerLine "age" || strIncludes lowerLine "sample" ||
  strIncludes lowerLine "ref. by"

/-- The test-result header trigger (textProcessor.ts lines 97-99). -/
def headerCond (lowerLine : String) : Bool :=
  strIncludes lowerLine "investigation" &&
  (strIncludes lowerLine "observed" || strIncludes lowerLine "value") &&
  strIncludes lowerLine "unit"

/-- The mutable state of the `lines.forEach` loop in `preprocessText`:
the buckets plus `isTestResultSection` and `columnIndices`. -/
structure ScanState where
  sections : Sections
  isTestResultSection : Bool
  columnIndices : ColumnIndices
deriving Repr, DecidableEq

def initScan : ScanState :=
  ⟨emptySections, false, emptyIndices⟩

/-- The body of `lines.forEach(line => ...)` (textProcessor.ts lines 82-133):
patient-info keyword classification, header detection with column-index
recording, then candidate-data-row processing — all three on the same line,
in this order, against the state updated so far. -/
def processLine (st : ScanState) (line : String) : ScanState :=
  let lowerLine := trimWs (lowerStr line)
  let st1 :=
    if patientCond lowerLine then
      { st with sections := { st.sections with
          patientInfo := st.sections.patientInfo ++ [line] } }
    else st
  let st2 :=
    if headerCond lowerLine then
      { st1 with
        isTestResultSection := true,
        columnIndices := computeIndices st1.columnIndices (splitRuns isWs line) }
    else st1
  if st2.isTestResultSection && ciAny st2.columnIndices then
    let values := splitRuns isWs line
    if 3 ≤ values.length then
      { st2 with sections := { st2.sections with
          investigation := st2.sections.investigation ++
            pushVal (getColumnValue values st2.columnIndices.investigation),
          observedValue := st2.sections.observedValue ++
            pushVal (getColumnValue values st2.columnIndices.observedValue),
          unit := st2.sections.unit ++
            pushVal (getColumnValue values st2.columnIndices.unit),
          biologicalRefInterval := st2.sections.biologicalRefInterval ++
            pushVal (getColumnValue values st2.columnIndices.biologicalRefInterval) } }
    else st2
  else st2

/-- `preprocessText` (textProcessor.ts lines 58-136): build the buckets by
scanning the (normalized) lines of one page. -/
def preprocessText (text : String) : Sections :=
  ((preprocessLines text).foldl processLine initScan).sections

/-- Case-insensitive literal matcher for an interpolated regex fragment: each
pattern character must equal the input character up to ASCII case, except that
`'.'` (a regex metacharacter left unescaped by the source, e.g. in the field
name `Ref. By`) matches any character other than a line terminator.  Returns
the suffix after the match. -/
def litMatch : List Char → List Char → Option (List Char)
  | [], cs => some cs
  | _ :: _, [] => none
  | p :: ps, c :: cs =>
    if p == '.' then
      if c == '\n' || c == '\r' then none else litMatch ps cs
    else if lowerChar p == lowerChar c then litMatch ps cs
    else none

/-- The positions a greedy `\s*` can leave the cursor at, most-consumed first
(the order in which the JS engine tries them when backtracking). -/
def wsSuffixes (cs : List Char) : List (List Char) :=
  let n := (cs.takeWhile isWs).length
  (List.range (n + 1)).map (fun k => cs.drop (n - k))

/-- The positions `[.:]?` can leave the cursor at, consuming first. -/
def dotOpts (cs : List Char) : List (List Char) :=
  match cs with
  | c :: rest => if c == '.' || c == ':' then [rest, cs] else [cs]
  | [] => [[]]

/-- The positions `\/?` can leave the cursor at, consuming first. -/
def slashOpts (cs : List Char) : List (List Char) :=
  match cs with
  | c :: rest => if c == '/' then [rest, cs] else [cs]
  | [] => [[]]

/-- Try a matcher at every start position, leftmost first: the search
performed by JS `text.match(regex)`. -/
def scanFirst (m : List Char → Option α) : List Char → Option α
  | [] => m []
  | c :: rest =>
    match m (c :: rest) with
    | some r => some r
    | none => scanFirst m rest

/-- The `\s*([^\n,]+)` tail of the `extractValue` regex with the engine's
backtracking: greedily skip whitespace; if a capturable character follows,
the capture runs greedily up to the next `\n`/`,`; otherwise `\s*` gives
characters back one at a time, so the capture becomes the last whitespace
character that is itself not a line break (if any). -/
def valueCapture (cs : List Char) : Option (List Char) :=
  let ws := cs.takeWhile isWs
  let rest := cs.dropWhile isWs
  let backtrack : Option (List Char) :=
    match ws.reverse.find? (fun c => c != '\n') with
    | some c => some [c]
    | none => none
  match rest with
  | [] => backtrack
  | c :: _ =>
    if c == '\n' || c == ',' then backtrack
    else some (rest.takeWhile (fun d => !(d == '\n' || d == ',')))

/-- Attempt the `extractValue` regex `` `${field}\s*[.:]\s*([^\n,]+)` `` at one
start position (textProcessor.ts line 144): the field literal, optional
whitespace, a mandatory `.` or `:`, then the captured value. -/
def extractValueAt (field : List Char) (cs : List Char) : Option (List Char) :=
  match litMatch field cs with
  | none => none
  | some rest1 =>
    let rest2 := rest1.dropWhile isWs
    match rest2 with
    | [] => none
    | c :: rest3 =>
      if c == '.' || c == ':' then valueCapture rest3 else none

/-- `extractValue` (textProcessor.ts lines 143-148): leftmost match of the
field-labelled value regex, returning the trimmed capture. -/
def extractValue (text : String) (field : String) : Option String :=
  match scanFirst (extractValueAt field.toList) text.toList with
  | some cap => some (trimWs (String.mk cap))
  | none => none

/-- The label alternatives of the lookahead in the `extractName` regex. -/
def nameKeywords : List (List Char) :=
  ["Collected".toList, "Gender".toList, "Age".toList, "Sample".toList, "Ref".toList]

/-- The lookahead `(?=\s+(?:Collected|Gender|Age|Sample|Ref))`: at least one
whitespace character, then one of the labels (case-insensitive).  Since no
label starts with whitespace, only the position after the maximal whitespace
run can match. -/
def lookaheadOk (cs : List Char) : Bool :=
  match cs with
  | [] => false
  | c :: _ =>
    isWs c && nameKeywords.any (fun k => (litMatch k (cs.dropWhile isWs)).isSome)

/-- The lazy capture `([^,\n]+?)` followed by the lookahead: extend one
character at a time (shortest first), stopping at the first length whose
remainder satisfies the lookahead; fail on `,`/`\n` or end of input. -/
def captureGo (acc : List Char) : List Char → Option (List Char)
  | [] => none
  | c :: rest =>
    if c == ',' || c == '\n' then none
    else if lookaheadOk rest then some (acc ++ [c])
    else captureGo (acc ++ [c]) rest

/-- Attempt the `extractName` regex
`/Name\s*[.:]?\s*([^,\n]+?)(?=\s+(?:Collected|Gender|Age|Sample|Ref))/i`
at one start position (textProcessor.ts line 151), with the engine's
backtracking order: `\s*` greedy, `[.:]?` consuming first, `\s*` greedy,
capture lazy. -/
def matchNameAt (cs : List Char) : Option (List Char) :=
  match litMatch "Name".toList cs with
  | none => none
  | some r1 =>
    (wsSuffixes r1).findSome? (fun a =>
      (dotOpts a).findSome? (fun b =>
        (wsSuffixes b).findSome? (fun c => captureGo [] c)))

/-- `extractName` (textProcessor.ts lines 150-153). -/
def extractName (text : String) : Option String :=
  match scanFirst matchNameAt text.toList with
  | some cap => some (trimWs (String.mk cap))
  | none => none

/-- The splits `(\d+)` can produce, longest (greedy) first, each paired with
its remainder; empty when no digit is present. -/
def digitSplits (cs : List Char) : List (List Char × List Char) :=
  let n := (cs.takeWhile isDigitCh).length
  (List.range n).map (fun j => (cs.take (n - j), cs.drop (n - j)))

/-- The splits `(\w+)` can produce, longest (greedy) first. -/
def wordSplits (cs : List Char) : List (List Char × List Char) :=
  let n := (cs.takeWhile isWordChar).length
  (List.range n).map (fun j => (cs.take (n - j), cs.drop (n - j)))

/-- The positions `(?:Yrs?|Years?)?` can leave the cursor at, in the engine's
preference order: `Yrs`, `Yr`, `Years`, `Year`, then the zero-width skip. -/
def unitOpts (cs : List Char) : List (List Char) :=
  (["Yrs".toList, "Yr".toList, "Years".toList, "Year".toList].filterMap
    (fun t => litMatch t cs)) ++ [cs]

/-- Attempt the `extractAgeGender` regex
`/Gender\s*\/?\s*Age\s*[.:]?\s*(\d+)\s*(?:Yrs?|Years?)?\s*(\w+)/i`
at one start position (textProcessor.ts line 156), in the engine's
backtracking order; returns (age capture, gender capture). -/
def matchAgeGenderAt (cs : List Char) : Option (List Char × List Char) :=
  match litMatch "Gender".toList cs with
  | none => none
  | some r1 =>
    (wsSuffixes r1).findSome? (fun a =>
    (slashOpts a).findSome? (fun b =>
    (wsSuffixes b).findSome? (fun c =>
    match litMatch "Age".toList c with
    | none => none
    | some r2 =>
      (wsSuffixes r2).findSome? (fun d =>
      (dotOpts d).findSome? (fun e =>
      (wsSuffixes e).findSome? (fun f =>
      (digitSplits f).findSome? (fun ag =>
      (wsSuffixes ag.2).findSome? (fun h =>
      (unitOpts h).findSome? (fun u =>
      (wsSuffixes u).findSome? (fun j =>
      (wordSplits j).findSome? (fun gw =>
        some (ag.1, gw.1))))))))))))

/-- `extractAgeGender` (textProcessor.ts lines 155-165): the captures are
returned as-is (no trimming). -/
def extractAgeGender (text : String) : Option (String × String) :=
  match scanFirst matchAgeGenderAt text.toList with
  | some p => some (String.mk p.1, String.mk p.2)
  | none => none

/-- The `patientInfo` object of `StructuredMedicalData` (textProcessor.ts
lines 4-12); every field is an optional string. -/
structure PatientInfo where
  name : Option String
  age : Option String
  date : Option String
  gender : Option String
  orderId : Option String
  sample : Option String
  referredBy : Option String
deriving Repr, DecidableEq

/-- The `testResults` object of `StructuredMedicalData` (textProcessor.ts
lines 13-18). -/
structure TestResults where
  investigation : List String
  observedValue : List String
  unit : List String
  biologicalRefInterval : List String
deriving Repr, DecidableEq

/-- The output record `StructuredMedicalData` (textProcessor.ts lines 3-22).
All five top-level fields are optional in the declared type. -/
structure StructuredMedicalData where
  patientInfo : Option PatientInfo
  testResults : Option TestResults
  measurements : Option (List (String × String))
  diagnosis : Option (List String)
  medications : Option (List String)
deriving Repr, DecidableEq

def emptyRecord : StructuredMedicalData :=
  ⟨none, none, none, none, none⟩

/-- The patient-info object built from the joined patient-info bucket
(textProcessor.ts lines 185-193). -/
def extractPatient (s : String) : PatientInfo :=
  { orderId := extractValue s "Order ID"
    name := extractName s
    date := extractValue s "Collected On"
    age := (extractAgeGender s).map (fun p => p.1)
    gender := (extractAgeGender s).map (fun p => p.2)
    sample := extractValue s "Sample"
    referredBy := extractValue s "Ref. By" }

/-- The body of `textContent.forEach((pageText, index) => ...)` in
`structureData` (textProcessor.ts lines 178-205): a page with a truthy joined
patient-info bucket overwrites `patientInfo` wholesale; a page with a
non-empty investigation bucket overwrites `testResults` wholesale. -/
def structurePage (acc : StructuredMedicalData) (pageText : String) : StructuredMedicalData :=
  let sections := preprocessText pageText
  let patientText := joinSp sections.patientInfo
  let acc1 :=
    if patientText ≠ "" then
      { acc with patientInfo := some (extractPatient patientText) }
    else acc
  if 0 < sections.investigation.length then
    { acc1 with testResults := some (TestResults.mk sections.investigation
        sections.observedValue sections.unit sections.biologicalRefInterval) }
  else acc1

/-- The record computed by `structureData` from the page texts
(textProcessor.ts lines 175-208): the pure value, independent of the inert
model state. -/
def structureDataPure (textContent : List String) : StructuredMedicalData :=
  textContent.foldl structurePage emptyRecord

/-- The joined patient-info bucket of one page. -/
def pagePatientText (page : String) : String :=
  joinSp (preprocessText page).patientInfo

/-- The patient-info object a page contributes (`none` when its bucket joins
to the empty string, i.e. the page does not touch `patientInfo`). -/
def pagePatient (page : String) : Option PatientInfo :=
  if pagePatientText page ≠ "" then some (extractPatient (pagePatientText page)) else none

/-- The test-results object a page contributes (`none` when its investigation
bucket is empty, i.e. the page does not touch `testResults`). -/
def pageTests (page : String) : Option TestResults :=
  let sections := preprocessText page
  if 0 < sections.investigation.length then
    some ⟨sections.investigation, sections.observedValue,
          sections.unit, sections.biologicalRefInterval⟩
  else none

/-- The mutable instance state of `TextProcessor` (textProcessor.ts lines
25-26), instrumented with counters for how many model objects have ever been
constructed (`tf.sequential()`) and disposed (`model.dispose()`), so that
resource claims are statable. -/
structure ProcState where
  model : Bool
  isInitLock : Bool
  created : Nat
  disposed : Nat
deriving Repr, DecidableEq

/-- A fresh `TextProcessor` instance. -/
def initProc : ProcState :=
  ⟨false, false, 0, 0⟩

/-- `loadModel` (textProcessor.ts lines 28-47).  `ok` abstracts whether the
model construction performed by the external library succeeds; the returned
flag is `true` when the call throws.  The in-progress guard returns early,
and the `finally` always clears it. -/
def loadModelRun (ok : Bool) (s : ProcState) : ProcState × Bool :=
  if s.model || s.isInitLock then (s, false)
  else if ok then ({ s with model := true, created := s.created + 1 }, false)
  else (s, true)

/-- `cleanup` (textProcessor.ts lines 50-56): dispose the model if one is
held, then clear the reference; a no-op on the model when none is held. -/
def cleanup (s : ProcState) : ProcState :=
  if s.model then { s with model := false, disposed := s.disposed + 1 } else s

/-- `structureData` (textProcessor.ts lines 167-214) with its instance state
threaded explicitly.  `loadOk` abstracts success of the lazy model
construction and `bodyOk` abstracts absence of any other exception inside the
`try` block; on any failure the `catch` runs `cleanup` and rethrows, and no
record is returned. -/
def structureDataRun (loadOk bodyOk : Bool) (s : ProcState) (textContent : List String) :
    ProcState × Except Unit StructuredMedicalData :=
  let loaded := if !s.model then loadModelRun loadOk s else (s, false)
  if loaded.2 then (cleanup loaded.1, Except.error ())
  else if !bodyOk then (cleanup loaded.1, Except.error ())
  else (loaded.1, Except.ok (structureDataPure textContent))

/-- An entry of `content.items` in `pdfProcessor.ts`: either a `TextItem`
(which has a `str` field) or another marked-content item (which does not). -/
inductive ContentItem where
  | text (s : String)
  | marked
deriving Repr, DecidableEq

/-- The `str` of a `TextItem`; `none` for items filtered out by
`'str' in item` (pdfProcessor.ts line 31). -/
def itemStr : ContentItem → Option String
  | ContentItem.text s => some s
  | ContentItem.marked => none

/-- Text of one page (pdfProcessor.ts lines 30-33): the `str` fields of the
text items joined with single spaces. -/
def pageTextOf (items : List ContentItem) : String :=
  joinSp (items.filterMap itemStr)

/-- An opened PDF document as the extractor sees it: a page count and, for
each 1-based page number, either the page's content items or a per-page
failure (modelling `getPage`/`getTextContent` rejecting). -/
structure PDFDoc where
  numPages : Nat
  getPage : Nat → Except Unit (List ContentItem)

/-- `extractTextFromPDF` (pdfProcessor.ts lines 20-45) after the document has
been opened: the loop `for i = 1..numPages` pushes the page's text, or the
empty string when processing that page throws. -/
def extractTextFromPDF (doc : PDFDoc) : List String :=
  (List.range doc.numPages).map (fun i =>
    match doc.getPage (i + 1) with
    | Except.ok items => pageTextOf items
    | Except.error _ => "")

/-- A word followed by `k` further space-separated copies of itself: the
shape of a column-duplication artifact (`w ++ sepReps w k` is the word
written `k + 1` times). -/
def sepReps (w : List Char) : Nat → List Char
  | 0 => []
  | k + 1 => (' ' :: w) ++ sepReps w k

/-! ### Helper lemmas -/

theorem beqFalseOfWord {c : Char} (h : isWordChar c = true) (d : Char)
    (hd : isWordChar d = false) : (c == d) = false := by
  cases he : c == d
  · rfl
  · have hcd : c = d := eq_of_beq he
    rw [hcd] at h
    rw [h] at hd
    exact absurd hd (by simp)

theorem wordNotWs {c : Char} (h : isWordChar c = true) : isWs c = false := by
  unfold isWs
  rw [beqFalseOfWord h ' ' (by decide), beqFalseOfWord h '\t' (by decide),
    beqFalseOfWord h '\n' (by decide), beqFalseOfWord h '\r' (by decide),
    beqFalseOfWord h '\x0b' (by decide), beqFalseOfWord h '\x0c' (by decide)]
  rfl

theorem nlImpWs {c : Char} (h : isNL c = true) : isWs c = true := by
  simp only [isNL, Bool.or_eq_true, beq_iff_eq] at h
  rcases h with h1 | h1 <;> subst h1 <;> decide

theorem dedupGo_nil (fuel : Nat) (b : Bool) : dedupGo fuel b [] = [] := by
  cases fuel <;> rfl

theorem matchReps_nil (w : List Char) (fuel : Nat) : matchReps w fuel [] = none := by
  cases fuel <;> rfl

theorem leadsWith_append (w r : List Char) : leadsWith w (w ++ r) = true := by
  induction w with
  | nil => rfl
  | cons p ps ih => simp [leadsWith, ih]

theorem joinSp_singleton (x : String) : joinSp [x] = x := rfl

theorem sepReps_length (w : List Char) (k : Nat) :
    (sepReps w k).length = k * (w.length + 1) := by
  induction k with
  | zero => simp [sepReps]
  | succ j ih => simp [sepReps, ih]; ring

theorem string_mk_data (s : String) : String.mk s.data = s := rfl

theorem lengthDropWhileLe (p : α → Bool) (l : List α) :
    (l.dropWhile p).length ≤ l.length := by
  induction l with
  | nil => simp
  | cons a t ih =>
    rw [List.dropWhile_cons]
    split
    · simp only [List.length_cons]; omega
    · simp

theorem splitRunsGo_no_sep (p : Char → Bool) (fuel : Nat) (cs : List Char)
    (h : ∀ c ∈ cs, p c = false) : splitRunsGo p fuel cs = [String.mk cs] := by
  cases fuel with
  | zero => rfl
  | succ f =>
    have ht : cs.takeWhile (fun c => !p c) = cs :=
      List.takeWhile_eq_self_iff.mpr (by intro x hx; simp [h x hx])
    have hd : cs.dropWhile (fun c => !p c) = [] :=
      List.dropWhile_eq_nil_iff.mpr (by intro x hx; simp [h x hx])
    simp only [splitRunsGo, ht, hd]

theorem splitRuns_no_sep (p : Char → Bool) (s : String)
    (h : ∀ c ∈ s.data, p c = false) : splitRuns p s = [s] := by
  unfold splitRuns
  rw [splitRunsGo_no_sep p s.length s.toList h]
  rfl

theorem splitRunsGo_chars (p : Char → Bool) (fuel : Nat) : ∀ cs : List Char,
    cs.length ≤ fuel → ∀ t ∈ splitRunsGo p fuel cs, ∀ c ∈ t.data, p c = false := by
  induction fuel with
  | zero =>
    intro cs hlen t ht c hc
    have : cs = [] := List.length_eq_zero.mp (Nat.le_zero.mp hlen)
    subst this
    simp only [splitRunsGo, List.mem_singleton] at ht
    subst ht
    simp at hc
  | succ f ih =>
    intro cs hlen t ht c hc
    simp only [splitRunsGo] at ht
    rcases hrest : cs.dropWhile (fun c => !p c) with _ | ⟨r, rs⟩
    · rw [hrest] at ht
      simp only [List.mem_singleton] at ht
      subst ht
      have := List.mem_takeWhile_imp hc
      simpa using this
    · rw [hrest] at ht
      rcases List.mem_cons.mp ht with h1 | h1
      · subst h1
        have := List.mem_takeWhile_imp hc
        simpa using this
      · refine ih (rs.dropWhile p) ?_ t h1 c hc
        have h2 : (cs.dropWhile (fun c => !p c)).length ≤ cs.length :=
          lengthDropWhileLe _ _
        rw [hrest] at h2
        have h3 : (rs.dropWhile p).length ≤ rs.length := lengthDropWhileLe _ _
        simp only [List.length_cons] at h2
        omega

theorem joinSp_chars (l : List String)
    (h : ∀ t ∈ l, ∀ c ∈ t.data, isNL c = false) :
    ∀ c ∈ (joinSp l).data, isNL c = false := by
  induction l with
  | nil => intro c hc; simp [joinSp] at hc
  | cons x rest ih =>
    cases rest with
    | nil =>
      intro c hc
      exact h x (List.mem_singleton.mpr rfl) c hc
    | cons y t =>
      intro c hc
      simp only [joinSp, String.data_append] at hc
      rcases List.mem_append.mp hc with h1 | h1
      · rcases List.mem_append.mp h1 with h2 | h2
        · exact h x (by simp) c h2
        · have : c = ' ' := by simpa using h2
          subst this; decide
      · exact ih (by intro u hu d hd; exact h u (by simp [hu]) d hd) c h1

theorem normalizeWS_no_nl (s : String) : ∀ c ∈ (normalizeWS s).data, isNL c = false := by
  unfold normalizeWS
  apply joinSp_chars
  intro t ht c hc
  have ht2 : t ∈ splitRuns isWs s := (List.mem_filter.mp ht).1
  have hws : isWs c = false := by
    unfold splitRuns at ht2
    exact splitRunsGo_chars isWs s.length s.toList (by rfl) t ht2 c hc
  cases hnl : isNL c
  · rfl
  · exact absurd (nlImpWs hnl) (by simp [hws])

theorem preprocessLines_singleton (text : String) :
    preprocessLines text = [mergedLine text] := by
  unfold preprocessLines
  rw [splitRuns_no_sep isNL (normalizeWS text) (normalizeWS_no_nl text)]
  rfl

theorem preprocessText_single (text : String) :
    preprocessText text = (processLine initScan (mergedLine text)).sections := by
  unfold preprocessText
  rw [preprocessLines_singleton, List.foldl_cons, List.foldl_nil]

theorem processLine_patientInfo (st : ScanState) (line : String) :
    (processLine st line).sections.patientInfo =
      st.sections.patientInfo ++
        (if patientCond (trimWs (lowerStr line)) then [line] else []) := by
  cases hp : patientCond (trimWs (lowerStr line)) <;>
  cases hh : headerCond (trimWs (lowerStr line)) <;>
    simp only [processLine, hp, hh, Bool.false_eq_true, if_false, if_true,
      ite_true, ite_false] <;>
    split <;> (try split) <;> simp

theorem processLine_diag (st : ScanState) (line : String) :
    (processLine st line).sections.diagnosis = st.sections.diagnosis := by
  cases hp : patientCond (trimWs (lowerStr line)) <;>
  cases hh : headerCond (trimWs (lowerStr line)) <;>
    simp only [processLine, hp, hh, Bool.false_eq_true, if_false, if_true,
      ite_true, ite_false] <;>
    split <;> (try split) <;> simp

theorem processLine_meds (st : ScanState) (line : String) :
    (processLine st line).sections.medications = st.sections.medications := by
  cases hp : patientCond (trimWs (lowerStr line)) <;>
  cases hh : headerCond (trimWs (lowerStr line)) <;>
    simp only [processLine, hp, hh, Bool.false_eq_true, if_false, if_true,
      ite_true, ite_false] <;>
    split <;> (try split) <;> simp

theorem structurePage_patientInfo (acc : StructuredMedicalData) (p : String) :
    (structurePage acc p).patientInfo = Option.or (pagePatient p) acc.patientInfo := by
  unfold structurePage pagePatient pagePatientText
  by_cases h : joinSp (preprocessText p).patientInfo = "" <;>
    simp only [h, if_true, if_false, ite_true, ite_false, ne_eq,
      not_true_eq_false, not_false_eq_true] <;>
    split <;> simp

theorem structurePage_testResults (acc : StructuredMedicalData) (p : String) :
    (structurePage acc p).testResults = Option.or (pageTests p) acc.testResults := by
  unfold structurePage pageTests
  by_cases h : 0 < (preprocessText p).investigation.length <;>
    simp only [h, if_true, if_false, ite_true, ite_false] <;>
    (try split) <;> simp

theorem structureData_foldl (pages : List String) (acc : StructuredMedicalData) :
    (pages.foldl structurePage acc).patientInfo
        = Option.or (pages.reverse.findSome? pagePatient) acc.patientInfo ∧
    (pages.foldl structurePage acc).testResults
        = Option.or (pages.reverse.findSome? pageTests) acc.testResults := by
  induction pages generalizing acc with
  | nil => simp
  | cons p rest ih =>
    simp only [List.foldl_cons, List.reverse_cons, List.findSome?_append]
    obtain ⟨ih1, ih2⟩ := ih (structurePage acc p)
    rw [ih1, ih2, structurePage_patientInfo, structurePage_testResults]
    constructor <;>
      cases rest.reverse.findSome? pagePatient <;>
      cases rest.reverse.findSome? pageTests <;>
      cases hpp : pagePatient p <;>
      cases hpt : pageTests p <;>
      simp [List.findSome?_cons, hpp, hpt]

theorem preprocess_patient_bucket (page : String) :
    (preprocessText page).patientInfo =
      if patientCond (trimWs (lowerStr (mergedLine page))) then [mergedLine page]
      else [] := by
  rw [preprocessText_single, processLine_patientInfo]
  simp [initScan, emptySections]

theorem pagePatientText_eq (page : String) :
    pagePatientText page =
      if patientCond (trimWs (lowerStr (mergedLine page))) then mergedLine page
      else "" := by
  unfold pagePatientText
  rw [preprocess_patient_bucket]
  split <;> rfl

theorem mergedLine_ne_of_cond {page : String}
    (h : patientCond (trimWs (lowerStr (mergedLine page))) = true) :
    mergedLine page ≠ "" := by
  intro he
  rw [he] at h
  exact absurd h (by decide)

theorem patient_bucket_iff (page : String) :
    (preprocessText page).patientInfo ≠ [] ↔ pagePatientText page ≠ "" := by
  rw [preprocess_patient_bucket, pagePatientText_eq]
  cases h : patientCond (trimWs (lowerStr (mergedLine page)))
  · simp
  · simp [mergedLine_ne_of_cond h]

theorem matchRep_sepReps (a : Char) (w' : List Char)
    (hall : ∀ c ∈ a :: w', isWordChar c = true) (k : Nat) :
    matchRep (a :: w') (sepReps (a :: w') (k + 1)) = some (sepReps (a :: w') k) := by
  have ha : isWordChar a = true := hall a (by simp)
  have hwa : ¬ (isWs a = true) := by simp [wordNotWs ha]
  have hsep : sepReps (a :: w') (k + 1) = ' ' :: a :: (w' ++ sepReps (a :: w') k) := by
    simp [sepReps]
  have ht : List.takeWhile isWs (' ' :: a :: (w' ++ sepReps (a :: w') k)) = [' '] := by
    rw [List.takeWhile_cons_of_pos (by decide), List.takeWhile_cons_of_neg hwa]
  have hd : List.dropWhile isWs (' ' :: a :: (w' ++ sepReps (a :: w') k))
      = a :: (w' ++ sepReps (a :: w') k) := by
    rw [List.dropWhile_cons_of_pos (by decide), List.dropWhile_cons_of_neg hwa]
  have hl : leadsWith (a :: w') (a :: (w' ++ sepReps (a :: w') k)) = true := by
    have h0 := leadsWith_append (a :: w') (sepReps (a :: w') k)
    simp only [List.cons_append] at h0
    exact h0
  have hdrop : (a :: (w' ++ sepReps (a :: w') k)).drop (a :: w').length
      = sepReps (a :: w') k := by
    have h0 := List.drop_left (a :: w') (sepReps (a :: w') k)
    simp only [List.cons_append] at h0
    exact h0
  rw [hsep]
  unfold matchRep
  simp only [ht, hd, hl, hdrop, List.isEmpty_cons, if_false, if_true, ite_true,
    ite_false, Bool.false_eq_true]
  cases k with
  | zero => simp [sepReps]
  | succ j =>
    have hx : sepReps (a :: w') (j + 1) = ' ' :: a :: (w' ++ sepReps (a :: w') j) := by
      simp [sepReps]
    rw [hx]
    simp [show isWordChar ' ' = false from by decide]

theorem matchReps_sepReps (a : Char) (w' : List Char)
    (hall : ∀ c ∈ a :: w', isWordChar c = true) :
    ∀ k fuel, k + 1 ≤ fuel →
      matchReps (a :: w') fuel (sepReps (a :: w') (k + 1)) = some [] := by
  intro k
  induction k with
  | zero =>
    intro fuel hf
    cases fuel with
    | zero => omega
    | succ f =>
      simp only [matchReps, matchRep_sepReps a w' hall 0]
      simp [sepReps, matchReps_nil]
  | succ j ih =>
    intro fuel hf
    cases fuel with
    | zero => omega
    | succ f =>
      simp only [matchReps, matchRep_sepReps a w' hall (j + 1)]
      rw [ih f (by omega)]

theorem dedupGo_collapse (a : Char) (w' : List Char)
    (hall : ∀ c ∈ a :: w', isWordChar c = true) (k : Nat) (fuel : Nat)
    (hf : 1 ≤ fuel) :
    dedupGo fuel false ((a :: w') ++ sepReps (a :: w') (k + 1)) = a :: w' := by
  cases fuel with
  | zero => omega
  | succ f =>
    have ha : isWordChar a = true := hall a (by simp)
    have htw : List.takeWhile isWordChar ((a :: w') ++ sepReps (a :: w') (k + 1))
        = a :: w' := by
      rw [List.takeWhile_append_of_pos hall]
      have : sepReps (a :: w') (k + 1) = ' ' :: a :: (w' ++ sepReps (a :: w') k) := by
        simp [sepReps]
      rw [this, List.takeWhile_cons_of_neg (by decide), List.append_nil]
    have hdw : List.dropWhile isWordChar ((a :: w') ++ sepReps (a :: w') (k + 1))
        = sepReps (a :: w') (k + 1) := by
      rw [List.dropWhile_append_of_pos hall]
      have : sepReps (a :: w') (k + 1) = ' ' :: a :: (w' ++ sepReps (a :: w') k) := by
        simp [sepReps]
      rw [this, List.dropWhile_cons_of_neg (by decide)]
    have hlen : k + 1 ≤ (sepReps (a :: w') (k + 1)).length + 1 := by
      rw [sepReps_length]
      have : 1 ≤ (a :: w').length + 1 := by omega
      calc k + 1 ≤ (k + 1) * ((a :: w').length + 1) := Nat.le_mul_of_pos_right _ (by omega)
        _ ≤ (k + 1) * ((a :: w').length + 1) + 1 := by omega
    have hreps := matchReps_sepReps a w' hall k ((sepReps (a :: w') (k + 1)).length + 1) hlen
    show dedupGo (f + 1) false (a :: (w' ++ sepReps (a :: w') (k + 1))) = a :: w'
    simp only [dedupGo, ha, Bool.not_false, Bool.and_true, if_true, ite_true]
    have hcons : a :: (w' ++ sepReps (a :: w') (k + 1))
        = (a :: w') ++ sepReps (a :: w') (k + 1) := by simp
    rw [hcons, htw, hdw, hreps]
    simp [dedupGo_nil]

theorem dedupWords_collapse (a : Char) (w' : List Char)
    (hall : ∀ c ∈ a :: w', isWordChar c = true) (k : Nat) :
    dedupWords (String.mk ((a :: w') ++ sepReps (a :: w') (k + 1)))
      = String.mk (a :: w') := by
  unfold dedupWords
  have hlen : 1 ≤ (String.mk ((a :: w') ++ sepReps (a :: w') (k + 1))).toList.length := by
    simp
  rw [show (String.mk ((a :: w') ++ sepReps (a :: w') (k + 1))).toList
      = (a :: w') ++ sepReps (a :: w') (k + 1) from rfl]
  rw [dedupGo_collapse a w' hall k _ (by simp)]

theorem processLine_header_row (line : String)
    (h1 : headerCond (trimWs (lowerStr line)) = true)
    (h2 : ciAny (computeIndices emptyIndices (splitRuns isWs line)) = true)
    (h3 : 3 ≤ (splitRuns isWs line).length) :
    (processLine initScan line).sections.investigation
        = pushVal (getColumnValue (splitRuns isWs line)
            (computeIndices emptyIndices (splitRuns isWs line)).investigation) ∧
    (processLine initScan line).sections.observedValue
        = pushVal (getColumnValue (splitRuns isWs line)
            (computeIndices emptyIndices (splitRuns isWs line)).observedValue) ∧
    (processLine initScan line).sections.unit
        = pushVal (getColumnValue (splitRuns isWs line)
            (computeIndices emptyIndices (splitRuns isWs line)).unit) ∧
    (processLine initScan line).sections.biologicalRefInterval
        = pushVal (getColumnValue (splitRuns isWs line)
            (computeIndices emptyIndices (splitRuns isWs line)).biologicalRefInterval) := by
  cases hp : patientCond (trimWs (lowerStr line)) <;>
    simp [processLine, hp, h1, h2, h3, initScan, emptySections]

theorem structurePage_rest (acc : StructuredMedicalData) (p : String) :
    (structurePage acc p).measurements = acc.measurements ∧
    (structurePage acc p).diagnosis = acc.diagnosis ∧
    (structurePage acc p).medications = acc.medications := by
  unfold structurePage
  by_cases h1 : joinSp (preprocessText p).patientInfo = "" <;>
  by_cases h2 : 0 < (preprocessText p).investigation.length <;>
    simp [h1, h2]

theorem structureData_rest (pages : List String) : ∀ acc : StructuredMedicalData,
    (pages.foldl structurePage acc).measurements = acc.measurements ∧
    (pages.foldl structurePage acc).diagnosis = acc.diagnosis ∧
    (pages.foldl structurePage acc).medications = acc.medications := by
  induction pages with
  | nil => intro acc; exact ⟨rfl, rfl, rfl⟩
  | cons p t ih =>
    intro acc
    rw [List.foldl_cons]
    obtain ⟨i1, i2, i3⟩ := ih (structurePage acc p)
    obtain ⟨j1, j2, j3⟩ := structurePage_rest acc p
    exact ⟨i1.trans j1, i2.trans j2, i3.trans j3⟩

theorem foldl_diag (lines : List String) : ∀ st : ScanState,
    (lines.foldl processLine st).sections.diagnosis = st.sections.diagnosis := by
  induction lines with
  | nil => intro st; rfl
  | cons l t ih => intro st; rw [List.foldl_cons, ih, processLine_diag]

theorem foldl_meds (lines : List String) : ∀ st : ScanState,
    (lines.foldl processLine st).sections.medications = st.sections.medications := by
  induction lines with
  | nil => intro st; rfl
  | cons l t ih => intro st; rw [List.foldl_cons, ih, processLine_meds]

/-- C2: for every page text given to the classification stage, whitespace
normalization (collapsing every whitespace run, newlines included, to one
space) is applied to the whole page before the split on newline boundaries,
so the resulting line list always has exactly one element - the entire
normalized page text - and no classified line ever follows another within a
page. -/
theorem claim_C2_one_line (text : String) :
    preprocessLines text = [mergedLine text] ∧ (preprocessLines text).length = 1 := by
  refine ⟨preprocessLines_singleton text, ?_⟩
  rw [preprocessLines_singleton]
  rfl

/-- C1 counterexample: for the page consisting of the table header line
followed by the data row `Glucose 95 mg/dL 70-110`, the four buckets receive
tokens of the merged single line (the header's own tokens `Investigation`,
`Value`, `Unit`, `Ref` at the recorded indices 0, 2, 3, 5), not the data
row's tokens: the investigation bucket is `["Investigation"]` and not
`["Glucose"]` as the claim predicts. -/
theorem claim_C1_counterexample :
    (preprocessText "Investigation Observed Value Unit Biological Ref Interval\nGlucose 95 mg/dL 70-110").investigation = ["Investigation"] ∧
    (preprocessText "Investigation Observed Value Unit Biological Ref Interval\nGlucose 95 mg/dL 70-110").observedValue = ["Value"] ∧
    (preprocessText "Investigation Observed Value Unit Biological Ref Interval\nGlucose 95 mg/dL 70-110").unit = ["Unit"] ∧
    (preprocessText "Investigation Observed Value Unit Biological Ref Interval\nGlucose 95 mg/dL 70-110").biologicalRefInterval = ["Ref"] ∧
    (preprocessText "Investigation Observed Value Unit Biological Ref Interval\nGlucose 95 mg/dL 70-110").investigation ≠ ["Glucose"] := by
  decide

/-- C1 (amended): because whitespace normalization replaces newlines before
the line split, a header line and its data rows are merged into one line; the
header-bearing merged line is itself processed as a candidate data row in the
same iteration, and whenever it has at least 3 whitespace-separated tokens
each of the four result buckets receives the merged line's token at that
bucket's recorded column index, skipping any column whose resolved value is
empty.  (The recorded indices point into the merged line, not into the
original data row.) -/
theorem claim_C1_amended (text : String)
    (h1 : headerCond (trimWs (lowerStr (mergedLine text))) = true)
    (h2 : ciAny (computeIndices emptyIndices (splitRuns isWs (mergedLine text))) = true)
    (h3 : 3 ≤ (splitRuns isWs (mergedLine text)).length) :
    (preprocessText text).investigation
        = pushVal (getColumnValue (splitRuns isWs (mergedLine text))
            (computeIndices emptyIndices (splitRuns isWs (mergedLine text))).investigation) ∧
    (preprocessText text).observedValue
        = pushVal (getColumnValue (splitRuns isWs (mergedLine text))
            (computeIndices emptyIndices (splitRuns isWs (mergedLine text))).observedValue) ∧
    (preprocessText text).unit
        = pushVal (getColumnValue (splitRuns isWs (mergedLine text))
            (computeIndices emptyIndices (splitRuns isWs (mergedLine text))).unit) ∧
    (preprocessText text).biologicalRefInterval
        = pushVal (getColumnValue (splitRuns isWs (mergedLine text))
            (computeIndices emptyIndices (splitRuns isWs (mergedLine text))).biologicalRefInterval) := by
  simp only [preprocessText_single]
  exact processLine_header_row (mergedLine text) h1 h2 h3

/-- C1 witness: the amended statement instantiated at the header-plus-row
page used by the counterexample. -/
theorem claim_C1_amended_witness :
    (preprocessText "Investigation Observed Value Unit Biological Ref Interval\nGlucose 95 mg/dL 70-110").unit
        = pushVal (getColumnValue (splitRuns isWs (mergedLine "Investigation Observed Value Unit Biological Ref Interval\nGlucose 95 mg/dL 70-110"))
            (computeIndices emptyIndices (splitRuns isWs (mergedLine "Investigation Observed Value Unit Biological Ref Interval\nGlucose 95 mg/dL 70-110"))).unit) :=
  (claim_C1_amended "Investigation Observed Value Unit Biological Ref Interval\nGlucose 95 mg/dL 70-110"
    (by decide) (by decide) (by decide)).2.2.1

/-- C3: for every opened PDF document with N pages, `extractTextFromPDF`
returns exactly N strings in page order; a page whose processing fails
contributes the empty string at its position and does not disturb the other
pages. -/
theorem claim_C3_extract (doc : PDFDoc) :
    (extractTextFromPDF doc).length = doc.numPages ∧
    ∀ i, i < doc.numPages →
      (doc.getPage (i + 1) = Except.error () → (extractTextFromPDF doc)[i]? = some "") ∧
      (∀ items, doc.getPage (i + 1) = Except.ok items →
        (extractTextFromPDF doc)[i]? = some (pageTextOf items)) := by
  constructor
  · simp [extractTextFromPDF]
  · intro i hi
    have hbase : (extractTextFromPDF doc)[i]?
        = some (match doc.getPage (i + 1) with
                | Except.ok items => pageTextOf items
                | Except.error _ => "") := by
      unfold extractTextFromPDF
      rw [List.getElem?_map, List.getElem?_range hi]
      rfl
    constructor
    · intro he
      rw [hbase, he]
    · intro items hok
      rw [hbase, hok]

/-- C3 witness: a 2-page document whose second page fails yields 2 entries
with an empty string at position 2. -/
theorem claim_C3_extract_witness :
    (extractTextFromPDF ⟨2, fun n => if n = 2 then Except.error () else Except.ok [ContentItem.text "hi"]⟩).length = 2 ∧
    (extractTextFromPDF ⟨2, fun n => if n = 2 then Except.error () else Except.ok [ContentItem.text "hi"]⟩)[1]? = some "" :=
  ⟨(claim_C3_extract ⟨2, fun n => if n = 2 then Except.error () else Except.ok [ContentItem.text "hi"]⟩).1,
   ((claim_C3_extract ⟨2, fun n => if n = 2 then Except.error () else Except.ok [ContentItem.text "hi"]⟩).2 1 (by decide)).1 (by rfl)⟩

/-- C4: a page with a non-empty patient-info bucket overwrites the record's
`patientInfo` object wholesale (independently of the accumulated record, so
no field-by-field merge), and a page with a non-empty investigation bucket
overwrites `testResults` wholesale; pages whose bucket is empty leave the
corresponding field unchanged, and consequently the final value of each field
comes from the last page that populated it. -/
theorem claim_C4_overwrite :
    (∀ (acc : StructuredMedicalData) (page : String),
        (preprocessText page).patientInfo ≠ [] →
        (structurePage acc page).patientInfo
          = some (extractPatient (pagePatientText page))) ∧
    (∀ (acc : StructuredMedicalData) (page : String),
        (preprocessText page).patientInfo = [] →
        (structurePage acc page).patientInfo = acc.patientInfo) ∧
    (∀ (acc : StructuredMedicalData) (page : String),
        (preprocessText page).investigation ≠ [] →
        (structurePage acc page).testResults
          = some (TestResults.mk (preprocessText page).investigation
              (preprocessText page).observedValue (preprocessText page).unit
              (preprocessText page).biologicalRefInterval)) ∧
    (∀ (acc : StructuredMedicalData) (page : String),
        (preprocessText page).investigation = [] →
        (structurePage acc page).testResults = acc.testResults) ∧
    (∀ pages : List String,
        (structureDataPure pages).patientInfo = pages.reverse.findSome? pagePatient ∧
        (structureDataPure pages).testResults = pages.reverse.findSome? pageTests) := by
  refine ⟨?_, ?_, ?_, ?_, ?_⟩
  · intro acc page h
    have h2 : pagePatientText page ≠ "" := (patient_bucket_iff page).mp h
    rw [structurePage_patientInfo]
    unfold pagePatient
    rw [if_pos h2]
    rfl
  · intro acc page h
    have h2 : ¬ (pagePatientText page ≠ "") := by
      intro hne
      exact absurd ((patient_bucket_iff page).mpr hne) (by simp [h])
    rw [structurePage_patientInfo]
    unfold pagePatient
    rw [if_neg h2]
    simp
  · intro acc page h
    rw [structurePage_testResults]
    unfold pageTests
    rw [if_pos (List.length_pos.mpr h)]
    rfl
  · intro acc page h
    rw [structurePage_testResults]
    unfold pageTests
    rw [if_neg (by simp [h])]
    simp
  · intro pages
    obtain ⟨h1, h2⟩ := structureData_foldl pages emptyRecord
    unfold structureDataPure
    rw [h1, h2]
    simp [emptyRecord]

/-- C4 witness: a page with a non-empty patient-info bucket replaces
`patientInfo` even starting from the empty record. -/
theorem claim_C4_overwrite_witness :
    (structurePage emptyRecord "Name. John Doe Gender/Age. 45 Male").patientInfo
      = some (extractPatient (pagePatientText "Name. John Doe Gender/Age. 45 Male")) :=
  claim_C4_overwrite.1 emptyRecord "Name. John Doe Gender/Age. 45 Male" (by decide)

/-- C5: structuring the page text `"Name. John Doe Gender/Age. 45 Male"`
yields name `"John Doe"`, age `"45"` and gender `"Male"` (the source applies
no case normalization: the captured token is returned verbatim, uniformly). -/
theorem claim_C5_scenario :
    (structureDataPure ["Name. John Doe Gender/Age. 45 Male"]).patientInfo.map PatientInfo.name
        = some (some "John Doe") ∧
    (structureDataPure ["Name. John Doe Gender/Age. 45 Male"]).patientInfo.map PatientInfo.age
        = some (some "45") ∧
    (structureDataPure ["Name. John Doe Gender/Age. 45 Male"]).patientInfo.map PatientInfo.gender
        = some (some "Male") := by
  decide

/-- C6: structuring the page text
`"Order ID. 12345, Name. John Doe, Collected On. 01-Jan-2024"` yields
order id `"12345"` and date `"01-Jan-2024"`. -/
theorem claim_C6_scenario :
    (structureDataPure ["Order ID. 12345, Name. John Doe, Collected On. 01-Jan-2024"]).patientInfo.map PatientInfo.orderId
        = some (some "12345") ∧
    (structureDataPure ["Order ID. 12345, Name. John Doe, Collected On. 01-Jan-2024"]).patientInfo.map PatientInfo.date
        = some (some "01-Jan-2024") := by
  decide

/-- C7: normalization collapses a single word (non-empty, word characters
only) repeated two or more times consecutively with whitespace in between to
one occurrence; in particular the line `"Glucose Glucose Glucose 95 mg/dL"`
normalizes to `"Glucose 95 mg/dL"` before classification. -/
theorem claim_C7_dedup :
    (∀ (a : Char) (w' : List Char), (∀ c ∈ a :: w', isWordChar c = true) →
      ∀ k : Nat, dedupWords (String.mk ((a :: w') ++ sepReps (a :: w') (k + 1)))
        = String.mk (a :: w')) ∧
    preprocessLines "Glucose Glucose Glucose 95 mg/dL" = ["Glucose 95 mg/dL"] := by
  refine ⟨?_, by decide⟩
  intro a w' hall k
  exact dedupWords_collapse a w' hall k

/-- C7 witness: the general collapse instantiated at the word `Glucose`
repeated three times. -/
theorem claim_C7_dedup_witness :
    dedupWords (String.mk (('G' :: "lucose".toList) ++ sepReps ('G' :: "lucose".toList) 2))
      = String.mk ('G' :: "lucose".toList) :=
  claim_C7_dedup.1 'G' "lucose".toList (by decide) 1

/-- C8: `structureData` is deterministic - from any instance state a
successful run returns exactly the pure function of the page texts, and
running it a second time on the state left by the first run returns the
identical result. -/
theorem claim_C8_deterministic (s : ProcState) (pages : List String) :
    (structureDataRun true true s pages).2 = Except.ok (structureDataPure pages) ∧
    (structureDataRun true true (structureDataRun true true s pages).1 pages).2
      = (structureDataRun true true s pages).2 := by
  unfold structureDataRun loadModelRun
  by_cases hm : s.model <;> by_cases hi : s.isInitLock <;> simp [hm, hi]

/-- C9: whenever `structureData` on a fresh instance propagates an error,
every model that was constructed has been disposed exactly once before the
error propagates (no leak: disposed = created; no double-free; at most one
model is ever constructed), the model reference is cleared, and `cleanup` is
safe to call when no model exists; the error carries no partial record by
construction. -/
theorem claim_C9_error_cleanup (loadOk bodyOk : Bool) (pages : List String)
    (h : (structureDataRun loadOk bodyOk initProc pages).2 = Except.error ()) :
    (structureDataRun loadOk bodyOk initProc pages).1.model = false ∧
    (structureDataRun loadOk bodyOk initProc pages).1.disposed
      = (structureDataRun loadOk bodyOk initProc pages).1.created ∧
    (structureDataRun loadOk bodyOk initProc pages).1.created ≤ 1 ∧
    (∀ t : ProcState, t.model = false → cleanup t = t) := by
  have hclean : ∀ t : ProcState, t.model = false → cleanup t = t := by
    intro t ht
    unfold cleanup
    rw [ht]
    simp
  cases loadOk <;> cases bodyOk
  · exact ⟨rfl, rfl, Nat.zero_le 1, hclean⟩
  · exact ⟨rfl, rfl, Nat.zero_le 1, hclean⟩
  · exact ⟨rfl, rfl, Nat.le_refl 1, hclean⟩
  · exfalso
    simp [structureDataRun, loadModelRun, initProc] at h

/-- C9 witness: a run whose body throws after the model was constructed
ends with the model released exactly once. -/
theorem claim_C9_error_cleanup_witness :
    (structureDataRun true false initProc ["page"]).1.model = false ∧
    (structureDataRun true false initProc ["page"]).1.disposed
      = (structureDataRun true false initProc ["page"]).1.created :=
  ⟨(claim_C9_error_cleanup true false ["page"] (by rfl)).1,
   (claim_C9_error_cleanup true false ["page"] (by rfl)).2.1⟩

/-- C10: the structured record never carries the `measurements`,
`diagnosis` or `medications` fields - no code path assigns them - and the
diagnosis/medications buckets are created but never appended to. -/
theorem claim_C10_absent (pages : List String) (text : String) :
    (structureDataPure pages).measurements = none ∧
    (structureDataPure pages).diagnosis = none ∧
    (structureDataPure pages).medications = none ∧
    (preprocessText text).diagnosis = [] ∧
    (preprocessText text).medications = [] := by
  obtain ⟨h1, h2, h3⟩ := structureData_rest pages emptyRecord
  refine ⟨h1, h2, h3, ?_, ?_⟩
  · unfold preprocessText
    rw [foldl_diag]
    rfl
  · unfold preprocessText
    rw [foldl_meds]
    rfl
